import Mathlib

/-!
Shallow embedding of the county-enrichment scripts (geocoder.py,
data_processor.py, utils.py) and proofs about the behaviours the
specification claims.

Python strings are modelled as lists of code points (`Str := List Nat`);
pandas cells as `Option Str` (`none` models NaN); a DataFrame as a
`List Row` over a fixed column set.  All definitions are translated from
the Python source; comments cite the file and lines they embed.
-/

set_option maxRecDepth 4000

namespace TitleDB

/-- A Python string, as its list of code points (ASCII fragment). -/
abbrev Str := List Nat

/-- Python `str.isspace` characters relevant to `str.strip` (ASCII). -/
def isSpaceN (n : Nat) : Bool :=
  n = 32 || n = 9 || n = 10 || n = 13 || n = 11 || n = 12

/-- ASCII digit, the characters kept by `re.sub(r'\D', '', s)`. -/
def isDigitN (n : Nat) : Bool := 48 ≤ n && n ≤ 57

/-- ASCII lowercase letter. -/
def isLowerN (n : Nat) : Bool := 97 ≤ n && n ≤ 122

/-- ASCII uppercase letter. -/
def isUpperN (n : Nat) : Bool := 65 ≤ n && n ≤ 90

/-- ASCII cased (alphabetic) character, as used by `str.title`. -/
def isAlphaN (n : Nat) : Bool := isLowerN n || isUpperN n

/-- Python `str.upper` on one character (ASCII). -/
def upN (n : Nat) : Nat := if isLowerN n then n - 32 else n

/-- Python `str.lower` on one character (ASCII). -/
def lowN (n : Nat) : Nat := if isUpperN n then n + 32 else n

/-- Python `str.upper`. -/
def upperStr (s : Str) : Str := s.map upN

/-- Python `str.strip`: drop leading and trailing whitespace. -/
def strip (s : Str) : Str :=
  ((s.dropWhile isSpaceN).reverse.dropWhile isSpaceN).reverse

/-- The per-character map of Python `str.title`: an alphabetic character is
lowercased when the previous character was cased, uppercased otherwise;
other characters pass through. -/
def tMap (prevCased : Bool) (c : Nat) : Nat :=
  if isAlphaN c then (if prevCased then lowN c else upN c) else c

/-- Python `str.title`, threading the previous-character-cased flag. -/
def titleAux : Bool → Str → Str
  | _, [] => []
  | b, c :: cs => tMap b c :: titleAux (isAlphaN c) cs

/-- Python `str.title` (the flag starts false: first cased char is upper). -/
def titleStr (s : Str) : Str := titleAux false s

/-- Python `re.sub(r'\D', '', s)`: keep only the digits. -/
def digitsOnly (s : Str) : Str := s.filter isDigitN

/-- Python `str(x)` on a possibly-NaN cell: `astype(str)` renders NaN as "nan". -/
def nanStr : Str := [110, 97, 110]

/-- Pandas `Series.astype(str)` on one cell. -/
def pyStrOpt (c : Option Str) : Str := c.getD nanStr

/-- Python truthiness of an `Optional[str]`: `None` and `""` are falsy. -/
def pyTruthy : Option Str → Bool
  | none => false
  | some s => !s.isEmpty

/-- The sentinel string "UNKNOWN". -/
def unknownStr : Str := [85, 78, 75, 78, 79, 87, 78]

/-! ## Data model

A CSV row over the fixed column set the scripts use
(StreetAddress, City, State, Zipcode, CountyName, BrokerPhoneNumber,
HomeType, Price).  A cell is `Option Str`; `none` models NaN. -/

structure Row where
  streetAddress : Option Str
  city : Option Str
  state : Option Str
  zipcode : Option Str
  countyName : Option Str
  brokerPhone : Option Str
  homeType : Option Str
  price : Option Str
deriving DecidableEq

/-- Column identifiers, for `DataCleaner.fill_missing_values` rules. -/
inductive ColId where
  | streetAddress | city | state | zipcode
  | countyName | brokerPhone | homeType | price
deriving DecidableEq

def getCell : ColId → Row → Option Str
  | .streetAddress, r => r.streetAddress
  | .city, r => r.city
  | .state, r => r.state
  | .zipcode, r => r.zipcode
  | .countyName, r => r.countyName
  | .brokerPhone, r => r.brokerPhone
  | .homeType, r => r.homeType
  | .price, r => r.price

def setCell : ColId → Option Str → Row → Row
  | .streetAddress, v, r => { r with streetAddress := v }
  | .city, v, r => { r with city := v }
  | .state, v, r => { r with state := v }
  | .zipcode, v, r => { r with zipcode := v }
  | .countyName, v, r => { r with countyName := v }
  | .brokerPhone, v, r => { r with brokerPhone := v }
  | .homeType, v, r => { r with homeType := v }
  | .price, v, r => { r with price := v }

/-- The run counters of `CountyDataProcessor` (data_processor.py:22-28). -/
structure Stats where
  total : Nat
  needs_geocoding : Nat
  geocoded : Nat
  failed : Nat
  already_had_county : Nat
deriving DecidableEq

/-- Constructor `CountyDataProcessor.__init__`: all counters start at zero. -/
def initStats : Stats := ⟨0, 0, 0, 0, 0⟩

/-! ## Geocoding client (geocoder.py) -/

/-- One entry of the `Counties` array; the `NAME` key may be absent. -/
structure CountyObj where
  NAME : Option Str
deriving DecidableEq

/-- The `geographies` object; the `Counties` key may be absent. -/
structure Geographies where
  Counties : Option (List CountyObj)
deriving DecidableEq

/-- One address match; the `geographies` key may be absent. -/
structure AddressMatch where
  geographies : Option Geographies
deriving DecidableEq

/-- The `result` object; the `addressMatches` key may be absent. -/
structure ResultObj where
  addressMatches : Option (List AddressMatch)
deriving DecidableEq

/-- A parsed JSON response body; the `result` key may be absent. -/
structure ApiResponse where
  result : Option ResultObj
deriving DecidableEq

/-- The response-parsing part of `CensusGeocoder.geocode_address`
(geocoder.py:64-75): guarded key lookups down to
`counties[0].get('NAME', '')`; any missing key, empty match list or
empty county list falls through to `None`. -/
def extract_county (data : ApiResponse) : Option Str :=
  match data.result with
  | none => none
  | some res =>
    match res.addressMatches with
    | none => none
    | some [] => none
    | some (m :: _) =>
      match m.geographies with
      | none => none
      | some g =>
        match g.Counties with
        | none => none
        | some [] => none
        | some (c :: _) => some (c.NAME.getD [])

/-- What the transport layer yields for one request: either a raised
`requests` exception (network failure / timeout), or a response carrying
a status code and a body (`none` body: `response.json()` raises). -/
inductive HttpResult where
  | exn : HttpResult
  | response (status : Nat) (body : Option ApiResponse) : HttpResult
deriving DecidableEq

/-- Whether `response.raise_for_status()` raises: exactly for 4xx/5xx codes. -/
def raise_for_status_raises (status : Nat) : Bool :=
  decide (400 ≤ status ∧ status < 600)

/-- The body of the `try` block of `geocode_address` (geocoder.py:45-75),
with each raising step made explicit as `Except.error`. -/
def geocode_body : HttpResult → Except Unit (Option Str)
  | .exn => .error ()
  | .response status body =>
    if raise_for_status_raises status then .error ()
    else
      match body with
      | none => .error ()
      | some data => .ok (extract_county data)

/-- Method `CensusGeocoder.geocode_address` (geocoder.py:45-82): the two
`except` clauses catch every exception and return `None`. -/
def geocode_address (h : HttpResult) : Option Str :=
  match geocode_body h with
  | .ok v => v
  | .error _ => none

/-! ## Enrichment pipeline (data_processor.py) -/

/-- Method `CountyDataProcessor._needs_geocoding` (data_processor.py:30-44):
NaN, or `str(v).strip().upper()` equal to `''` or `'UNKNOWN'`. -/
def _needs_geocoding (v : Option Str) : Bool :=
  match v with
  | none => true
  | some s =>
    let t := upperStr (strip s)
    t = ([] : Str) || t = unknownStr

/-- The row-selection mask built inline in
`CountyDataProcessor.identify_missing_counties` (data_processor.py:72-76):
`isna() | (str.strip() == '') | (str.upper() == 'UNKNOWN')`.
Note that, unlike `_needs_geocoding`, the `'UNKNOWN'` comparison here
uppercases but does not strip. -/
def needs_geocoding_mask (v : Option Str) : Bool :=
  match v with
  | none => true
  | some s => strip s = ([] : Str) || upperStr s = unknownStr

/-- The mask applied to a row's CountyName cell. -/
def needs_mask (r : Row) : Bool := needs_geocoding_mask r.countyName

/-- The counter updates of `identify_missing_counties`
(data_processor.py:78-79). -/
def identify_missing_counties (df : List Row) (s : Stats) : Stats :=
  { s with
    needs_geocoding := (df.filter needs_mask).length
    already_had_county := df.length - (df.filter needs_mask).length }

/-- Method `CountyDataProcessor.process_row` (data_processor.py:106-124): one
lookup result; `if county:` (Python truthiness) updates the cell and
bumps `geocoded`, else bumps `failed` and leaves the row alone.
Returns the updated row, the updated stats and the boolean the method
returns. -/
def process_row (county : Option Str) (row : Row) (s : Stats) :
    Row × Stats × Bool :=
  if pyTruthy county then
    ({ row with countyName := county },
     { s with geocoded := s.geocoded + 1 }, true)
  else
    (row, { s with failed := s.failed + 1 }, false)

/-- The row loop of `CountyDataProcessor.process_dataframe`
(data_processor.py:146-154), walking the whole frame in order: rows
selected by the mask are processed with the client's answer for their
original index (the oracle abstracts the geocoding client), other rows
pass through untouched.  `wait()` and the progress callback do not
touch the data. -/
def enrichAux (oracle : Nat → Option Str) :
    Nat → List Row → Stats → List Row × Stats
  | _, [], s => ([], s)
  | i, r :: rs, s =>
    if needs_mask r then
      let p := process_row (oracle i) r s
      let rest := enrichAux oracle (i + 1) rs p.2.1
      (p.1 :: rest.1, rest.2)
    else
      let rest := enrichAux oracle (i + 1) rs s
      (r :: rest.1, rest.2)

/-- Method `CountyDataProcessor.process_dataframe` (data_processor.py:126-156). -/
def process_dataframe (oracle : Nat → Option Str) (df : List Row)
    (s : Stats) : List Row × Stats :=
  enrichAux oracle 0 df (identify_missing_counties df s)

/-- The `stats['total']` update of `load_csv` (data_processor.py:58). -/
def load_stats (df : List Row) (s : Stats) : Stats :=
  { s with total := df.length }

/-- Method `CountyDataProcessor.process_csv_file` (data_processor.py:177-195):
load (sets `total`), process, save; starting from fresh counters. -/
def process_csv_pipeline (oracle : Nat → Option Str) (df : List Row) :
    List Row × Stats :=
  process_dataframe oracle df (load_stats df initStats)

/-! ## Reporting utilities (utils.py) -/

/-- Expression `df['CountyName'].isna().sum()` (utils.py:38, 79-80). -/
def missing_count (df : List Row) : Nat :=
  (df.filter (fun r => r.countyName.isNone)).length

/-- The fields of `DataAnalyzer.analyze_csv` the claims touch
(utils.py:25-38). -/
structure Analysis where
  total_properties : Nat
  missing_county : Nat
deriving DecidableEq

/-- Method `DataAnalyzer.analyze_csv`, restricted to the claimed fields. -/
def analyze_csv (df : List Row) : Analysis :=
  ⟨df.length, missing_count df⟩

/-- The dictionary built by `DataAnalyzer.compare_csvs` (utils.py:82-87).
`success_rate` is the value of `(original_missing - updated_missing) /
original_missing * 100`; with a zero `original_missing` the Python
division is a division-by-zero condition (`ZeroDivisionError` for plain
int operands, a warning plus nan/inf for the numpy scalars produced by
`.sum()`), modelled as `none`. -/
structure CompareResult where
  original_missing : Nat
  updated_missing : Nat
  records_updated : Int
  success_rate : Option ℚ
deriving DecidableEq

/-- Method `DataAnalyzer.compare_csvs` (utils.py:76-89). -/
def compare_csvs (orig updated : List Row) : CompareResult :=
  let om := missing_count orig
  let um := missing_count updated
  { original_missing := om
    updated_missing := um
    records_updated := (om : Int) - (um : Int)
    success_rate :=
      if om = 0 then none
      else some ((((om : Int) - (um : Int) : Int) : ℚ) / (om : ℚ) * 100) }

/-- Expression `county_name.replace(' ', '_')` (utils.py:113). -/
def sanitize (s : Str) : Str := s.map (fun c => if c = 32 then 95 else c)

/-- The distinct non-null county values, i.e. the group keys of
`df.groupby('CountyName')` (utils.py:108): pandas drops NaN keys.
(pandas sorts the keys; key order only affects the order of the write
calls, which none of the claimed properties depend on, so first-seen
order is used here.) -/
def county_keys (df : List Row) : List Str :=
  (df.filterMap (fun r => r.countyName)).dedup

/-- The rows of one group: exact match on the county cell. -/
def county_group (df : List Row) (k : Str) : List Row :=
  df.filter (fun r => decide (r.countyName = some k))

/-- The sequence of `group_df.to_csv(filename)` calls performed by
`DataAnalyzer.export_by_county` (utils.py:108-116): one (sanitized
file name, group rows) pair per distinct non-null county value. -/
def export_writes (df : List Row) : List (Str × List Row) :=
  (county_keys df).map (fun k => (sanitize k, county_group df k))

/-- The `files_created` list returned by `export_by_county`. -/
def files_created (df : List Row) : List Str :=
  (export_writes df).map Prod.fst

/-! ## Cleaning utilities (utils.py, DataCleaner) -/

/-- Method `DataCleaner.clean_phone_numbers` (utils.py:174-179):
`astype(str).str.replace(r'\D', '', regex=True)` when the column exists. -/
def clean_phone_numbers (hasCol : Bool) (df : List Row) : List Row :=
  if hasCol then
    df.map (fun r =>
      { r with brokerPhone := some (digitsOnly (pyStrOpt r.brokerPhone)) })
  else df

/-- Method `DataCleaner.normalize_addresses` (utils.py:181-186):
`.str.strip().str.title()` when the column exists; `.str` operations
map NaN to NaN. -/
def normalize_addresses (hasCol : Bool) (df : List Row) : List Row :=
  if hasCol then
    df.map (fun r =>
      { r with streetAddress := r.streetAddress.map (fun s => titleStr (strip s)) })
  else df

/-- Pandas `fillna(default_value)` on one cell. -/
def fillCell (d : Str) : Option Str → Option Str
  | none => some d
  | some x => some x

/-- One `df[column].fillna(default, inplace=True)` step applied to a row. -/
def rowFill (rule : ColId × Str) (r : Row) : Row :=
  setCell rule.1 (fillCell rule.2 (getCell rule.1 r)) r

/-- Method `DataCleaner.fill_missing_values` (utils.py:188-195): iterate the
caller-supplied `defaults` rules; every `ColId` column exists. -/
def fill_missing_values (defaults : List (ColId × Str)) (df : List Row) :
    List Row :=
  defaults.foldl (fun acc rule => acc.map (rowFill rule)) df

/-- All rules applied to a single row, in order. -/
def rowFillAll (defaults : List (ColId × Str)) (r : Row) : Row :=
  defaults.foldl (fun r rule => rowFill rule r) r

/-- A string with no leading and no trailing whitespace. -/
def noSpaceEnds (s : Str) : Prop :=
  (∀ c, s.head? = some c → isSpaceN c = false) ∧
  (∀ c, s.getLast? = some c → isSpaceN c = false)

/-! ## Concrete example data used by the closed theorems below -/

/-- A row carrying only a county value, every other cell NaN. -/
def mkCountyRow (c : Option Str) : Row :=
  ⟨none, none, none, none, c, none, none, none⟩

/-- The string "Fulton". -/
def fultonStr : Str := [70, 117, 108, 116, 111, 110]

/-- The string "DeKalb". -/
def dekalbStr : Str := [68, 101, 75, 97, 108, 98]

/-- The string " unknown " (the UNKNOWN sentinel with surrounding blanks). -/
def wsUnknownStr : Str := [32, 117, 110, 107, 110, 111, 119, 110, 32]

/-- A response of the expected full shape whose first county NAME is "Fulton". -/
def goodResp : ApiResponse :=
  ⟨some ⟨some [⟨some ⟨some [⟨some fultonStr⟩]⟩⟩]⟩⟩

/-- A response of the expected shape except that the first county object
has no NAME key. -/
def noNameResp : ApiResponse :=
  ⟨some ⟨some [⟨some ⟨some [⟨none⟩]⟩⟩]⟩⟩

/-- Two rows whose distinct county values "A B" and "A_B" collide after
`replace(' ', '_')` sanitization. -/
def exDfSplit : List Row :=
  [mkCountyRow (some [65, 32, 66]), mkCountyRow (some [65, 95, 66])]

/-- Three rows with counties "Fulton", NaN, "DeKalb": no sanitization
collision. -/
def exDfOk : List Row :=
  [mkCountyRow (some fultonStr), mkCountyRow none, mkCountyRow (some dekalbStr)]

/-- The section-8 scenario dataset: counties "Fulton", "", "UNKNOWN". -/
def scenarioDf : List Row :=
  [mkCountyRow (some fultonStr), mkCountyRow (some []), mkCountyRow (some unknownStr)]

/-- A geocoding client stubbed to answer "DeKalb" for every lookup. -/
def exOracle : Nat → Option Str := fun _ => some dekalbStr

/-! ## Helper lemmas -/


lemma isLower_iff (n : Nat) : isLowerN n = true ↔ 97 ≤ n ∧ n ≤ 122 := by
  simp [isLowerN]

lemma isUpper_iff (n : Nat) : isUpperN n = true ↔ 65 ≤ n ∧ n ≤ 90 := by
  simp [isUpperN]

lemma isAlpha_iff (n : Nat) :
    isAlphaN n = true ↔ (97 ≤ n ∧ n ≤ 122) ∨ (65 ≤ n ∧ n ≤ 90) := by
  simp [isAlphaN, isLower_iff, isUpper_iff]

lemma isSpace_iff (n : Nat) :
    isSpaceN n = true ↔ n = 32 ∨ n = 9 ∨ n = 10 ∨ n = 13 ∨ n = 11 ∨ n = 12 := by
  simp [isSpaceN]; tauto

lemma isAlphaN_upN (c : Nat) : isAlphaN (upN c) = isAlphaN c := by
  by_cases h : isLowerN c = true
  · have h1 : upN c = c - 32 := by simp [upN, h]
    rw [isLower_iff] at h
    rw [h1, Bool.eq_iff_iff, isAlpha_iff, isAlpha_iff]; omega
  · simp [upN, h]

lemma isAlphaN_lowN (c : Nat) : isAlphaN (lowN c) = isAlphaN c := by
  by_cases h : isUpperN c = true
  · have h1 : lowN c = c + 32 := by simp [lowN, h]
    rw [isUpper_iff] at h
    rw [h1, Bool.eq_iff_iff, isAlpha_iff, isAlpha_iff]; omega
  · simp [lowN, h]

lemma isSpaceN_upN (c : Nat) : isSpaceN (upN c) = isSpaceN c := by
  by_cases h : isLowerN c = true
  · have h1 : upN c = c - 32 := by simp [upN, h]
    rw [isLower_iff] at h
    rw [h1, Bool.eq_iff_iff, isSpace_iff, isSpace_iff]; omega
  · simp [upN, h]

lemma isSpaceN_lowN (c : Nat) : isSpaceN (lowN c) = isSpaceN c := by
  by_cases h : isUpperN c = true
  · have h1 : lowN c = c + 32 := by simp [lowN, h]
    rw [isUpper_iff] at h
    rw [h1, Bool.eq_iff_iff, isSpace_iff, isSpace_iff]; omega
  · simp [lowN, h]

lemma upN_upN (c : Nat) : upN (upN c) = upN c := by
  by_cases h : isLowerN c = true
  · have h1 : upN c = c - 32 := by simp [upN, h]
    rw [isLower_iff] at h
    have h2 : isLowerN (c - 32) = false := by
      rw [← Bool.not_eq_true, isLower_iff]; omega
    rw [h1]; simp [upN, h2]
  · simp [upN, h]

lemma lowN_lowN (c : Nat) : lowN (lowN c) = lowN c := by
  by_cases h : isUpperN c = true
  · have h1 : lowN c = c + 32 := by simp [lowN, h]
    rw [isUpper_iff] at h
    have h2 : isUpperN (c + 32) = false := by
      rw [← Bool.not_eq_true, isUpper_iff]; omega
    rw [h1]; simp [lowN, h2]
  · simp [lowN, h]

lemma isAlphaN_tMap (b : Bool) (c : Nat) : isAlphaN (tMap b c) = isAlphaN c := by
  unfold tMap
  split
  · cases b
    · exact isAlphaN_upN c
    · exact isAlphaN_lowN c
  · rfl

lemma isSpaceN_tMap (b : Bool) (c : Nat) : isSpaceN (tMap b c) = isSpaceN c := by
  unfold tMap
  split
  · cases b
    · exact isSpaceN_upN c
    · exact isSpaceN_lowN c
  · rfl

lemma tMap_tMap (b : Bool) (c : Nat) : tMap b (tMap b c) = tMap b c := by
  by_cases hα : isAlphaN c = true
  · cases b
    · have h1 : tMap false c = upN c := by simp [tMap, hα]
      have h2 : isAlphaN (upN c) = true := by rw [isAlphaN_upN]; exact hα
      rw [h1]; simp [tMap, h2, upN_upN]
    · have h1 : tMap true c = lowN c := by simp [tMap, hα]
      have h2 : isAlphaN (lowN c) = true := by rw [isAlphaN_lowN]; exact hα
      rw [h1]; simp [tMap, h2, lowN_lowN]
  · have h1 : tMap b c = c := by simp [tMap, hα]
    rw [h1, h1]



lemma dropWhile_head_false (p : Nat → Bool) (l : Str) :
    l.dropWhile p = [] ∨ ∃ c t, l.dropWhile p = c :: t ∧ p c = false := by
  induction l with
  | nil => exact Or.inl rfl
  | cons a l ih =>
    by_cases h : p a = true
    · simpa [List.dropWhile, h] using ih
    · rw [Bool.not_eq_true] at h
      exact Or.inr ⟨a, l, by simp [List.dropWhile, h], h⟩

lemma dropWhile_pre (p : Nat → Bool) (l : Str) :
    ∃ u, u ++ l.dropWhile p = l := by
  induction l with
  | nil => exact ⟨[], rfl⟩
  | cons a l ih =>
    by_cases h : p a = true
    · obtain ⟨u, hu⟩ := ih
      exact ⟨a :: u, by simp [List.dropWhile, h, hu]⟩
    · rw [Bool.not_eq_true] at h
      exact ⟨[], by simp [List.dropWhile, h]⟩

lemma strip_of_noSpaceEnds (s : Str) (h : noSpaceEnds s) : strip s = s := by
  unfold strip
  have h1 : s.dropWhile isSpaceN = s := by
    cases s with
    | nil => rfl
    | cons a t =>
      have ha : isSpaceN a = false := h.1 a rfl
      simp [List.dropWhile, ha]
  rw [h1]
  have h2 : s.reverse.dropWhile isSpaceN = s.reverse := by
    cases hs : s.reverse with
    | nil => rfl
    | cons a t =>
      have ha : s.getLast? = some a := by
        rw [← List.head?_reverse, hs]; rfl
      have := h.2 a ha
      simp [List.dropWhile, this]
  rw [h2, List.reverse_reverse]

lemma noSpaceEnds_strip (s : Str) : noSpaceEnds (strip s) := by
  constructor
  · intro c hc
    obtain ⟨w, hw⟩ := dropWhile_pre isSpaceN (s.dropWhile isSpaceN).reverse
    have ht : strip s ++ w.reverse = s.dropWhile isSpaceN := by
      unfold strip
      calc ((s.dropWhile isSpaceN).reverse.dropWhile isSpaceN).reverse ++ w.reverse
          = (w ++ (s.dropWhile isSpaceN).reverse.dropWhile isSpaceN).reverse := by
            rw [List.reverse_append]
        _ = (s.dropWhile isSpaceN).reverse.reverse := by rw [hw]
        _ = s.dropWhile isSpaceN := List.reverse_reverse _
    cases hst : strip s with
    | nil => rw [hst] at hc; cases hc
    | cons a ts =>
      rw [hst] at hc
      have hac : a = c := by simpa using hc
      rcases dropWhile_head_false isSpaceN s with h0 | ⟨c', t', h1, h2⟩
      · rw [h0] at ht
        rw [hst] at ht
        cases ht
      · rw [h1] at ht
        rw [hst] at ht
        have : a = c' := by
          have := congrArg List.head? ht
          simpa using this
        rw [← hac, this]
        exact h2
  · intro c hc
    unfold strip at hc
    rw [List.getLast?_reverse] at hc
    rcases dropWhile_head_false isSpaceN (s.dropWhile isSpaceN).reverse with h0 | ⟨c', t', h1, h2⟩
    · rw [h0] at hc; cases hc
    · rw [h1] at hc
      have : c' = c := by simpa using hc
      rw [← this]; exact h2

lemma strip_strip (s : Str) : strip (strip s) = strip s :=
  strip_of_noSpaceEnds _ (noSpaceEnds_strip s)

lemma titleAux_map_isSpace (b : Bool) (s : Str) :
    (titleAux b s).map isSpaceN = s.map isSpaceN := by
  induction s generalizing b with
  | nil => rfl
  | cons c cs ih => simp [titleAux, isSpaceN_tMap, ih]

lemma titleAux_titleAux (b : Bool) (s : Str) :
    titleAux b (titleAux b s) = titleAux b s := by
  induction s generalizing b with
  | nil => rfl
  | cons c cs ih => simp [titleAux, isAlphaN_tMap, tMap_tMap, ih]

lemma noSpaceEnds_title (s : Str) (h : noSpaceEnds s) :
    noSpaceEnds (titleStr s) := by
  constructor
  · intro c hc
    cases s with
    | nil => cases hc
    | cons a t =>
      have hts : titleStr (a :: t) = tMap false a :: titleAux (isAlphaN a) t := rfl
      rw [hts] at hc
      have hc' : tMap false a = c := by simpa using hc
      rw [← hc', isSpaceN_tMap]
      exact h.1 a rfl
  · intro c hc
    have hm : ((titleStr s).map isSpaceN).getLast? = ((s.map isSpaceN)).getLast? := by
      unfold titleStr
      rw [titleAux_map_isSpace]
    rw [List.getLast?_map, List.getLast?_map, hc] at hm
    cases hg : s.getLast? with
    | none => rw [hg] at hm; cases hm
    | some d =>
      rw [hg] at hm
      have : isSpaceN c = isSpaceN d := by simpa using hm
      rw [this]
      exact h.2 d hg

lemma addr_norm_idem (s : Str) :
    titleStr (strip (titleStr (strip s))) = titleStr (strip s) := by
  rw [strip_of_noSpaceEnds _ (noSpaceEnds_title _ (noSpaceEnds_strip s))]
  exact titleAux_titleAux false (strip s)



lemma process_row_stats (c : Option Str) (r : Row) (s : Stats) :
    ((process_row c r s).2.1.geocoded + (process_row c r s).2.1.failed
       = s.geocoded + s.failed + 1) ∧
    (process_row c r s).2.1.total = s.total ∧
    (process_row c r s).2.1.needs_geocoding = s.needs_geocoding ∧
    (process_row c r s).2.1.already_had_county = s.already_had_county := by
  unfold process_row
  by_cases h : pyTruthy c = true <;> simp [h] <;> omega

lemma enrichAux_cons_pos (oracle : Nat → Option Str) (i : Nat) (r : Row)
    (rs : List Row) (s : Stats) (h : needs_mask r = true) :
    enrichAux oracle i (r :: rs) s =
      ((process_row (oracle i) r s).1 ::
        (enrichAux oracle (i + 1) rs (process_row (oracle i) r s).2.1).1,
       (enrichAux oracle (i + 1) rs (process_row (oracle i) r s).2.1).2) := by
  simp [enrichAux, h]

lemma enrichAux_cons_neg (oracle : Nat → Option Str) (i : Nat) (r : Row)
    (rs : List Row) (s : Stats) (h : needs_mask r = false) :
    enrichAux oracle i (r :: rs) s =
      (r :: (enrichAux oracle (i + 1) rs s).1,
       (enrichAux oracle (i + 1) rs s).2) := by
  simp [enrichAux, h]

lemma enrichAux_stats (oracle : Nat → Option Str) (rows : List Row) :
    ∀ (i : Nat) (s : Stats),
    ((enrichAux oracle i rows s).2.geocoded + (enrichAux oracle i rows s).2.failed
       = s.geocoded + s.failed + (rows.filter needs_mask).length) ∧
    (enrichAux oracle i rows s).2.total = s.total ∧
    (enrichAux oracle i rows s).2.needs_geocoding = s.needs_geocoding ∧
    (enrichAux oracle i rows s).2.already_had_county = s.already_had_county := by
  induction rows with
  | nil => intro i s; simp [enrichAux]
  | cons r rs ih =>
    intro i s
    by_cases h : needs_mask r = true
    · rw [enrichAux_cons_pos oracle i r rs s h]
      have hp := process_row_stats (oracle i) r s
      have hi := ih (i + 1) (process_row (oracle i) r s).2.1
      simp only [List.filter_cons, h, if_true, List.length_cons]
      refine ⟨?_, ?_, ?_, ?_⟩ <;> omega
    · rw [Bool.not_eq_true] at h
      rw [enrichAux_cons_neg oracle i r rs s h]
      have hi := ih (i + 1) s
      simp only [List.filter_cons, h, Bool.false_eq_true, if_false]
      exact hi

lemma enrichAux_frame (oracle : Nat → Option Str) (rows : List Row) :
    ∀ (i : Nat) (s : Stats),
    List.Forall₂ (fun a b => needs_mask a = false → b = a) rows
      (enrichAux oracle i rows s).1 := by
  induction rows with
  | nil => intro i s; exact List.Forall₂.nil
  | cons r rs ih =>
    intro i s
    by_cases h : needs_mask r = true
    · rw [enrichAux_cons_pos oracle i r rs s h]
      exact List.Forall₂.cons (fun hf => absurd h (by simp [hf])) (ih _ _)
    · rw [Bool.not_eq_true] at h
      rw [enrichAux_cons_neg oracle i r rs s h]
      exact List.Forall₂.cons (fun _ => rfl) (ih _ _)



lemma getCell_setCell (c c' : ColId) (v : Option Str) (r : Row) :
    getCell c' (setCell c v r) = if c' = c then v else getCell c' r := by
  cases c <;> cases c' <;> simp [getCell, setCell]

lemma setCell_getCell (c : ColId) (r : Row) : setCell c (getCell c r) r = r := by
  cases r; cases c <;> rfl

lemma fillCell_isSome (d : Str) (o : Option Str) : (fillCell d o).isSome = true := by
  cases o <;> rfl

lemma getCell_rowFill_mono (c : ColId) (rule : ColId × Str) (r : Row) (x : Str)
    (h : getCell c r = some x) : getCell c (rowFill rule r) = some x := by
  obtain ⟨c', d⟩ := rule
  unfold rowFill
  rw [getCell_setCell]
  by_cases hc : c = c'
  · subst hc; rw [if_pos rfl, h]; rfl
  · rw [if_neg hc]; exact h

lemma rowFillAll_cons (rule : ColId × Str) (ds : List (ColId × Str)) (r : Row) :
    rowFillAll (rule :: ds) r = rowFillAll ds (rowFill rule r) := rfl

lemma getCell_rowFillAll_mono (ds : List (ColId × Str)) (c : ColId) (r : Row)
    (x : Str) (h : getCell c r = some x) :
    getCell c (rowFillAll ds r) = some x := by
  induction ds generalizing r with
  | nil => exact h
  | cons rule ds ih =>
    rw [rowFillAll_cons]
    exact ih _ (getCell_rowFill_mono c rule r x h)

lemma rowFillAll_some_of_mem (ds : List (ColId × Str)) (c : ColId) (d : Str)
    (r : Row) (h : (c, d) ∈ ds) :
    (getCell c (rowFillAll ds r)).isSome = true := by
  induction ds generalizing r with
  | nil => cases h
  | cons rule ds ih =>
    rw [rowFillAll_cons]
    rcases List.mem_cons.mp h with h1 | h1
    · have hsome : (getCell c (rowFill rule r)).isSome = true := by
        rw [← h1]
        unfold rowFill
        rw [getCell_setCell, if_pos rfl]
        exact fillCell_isSome _ _
      obtain ⟨x, hx⟩ := Option.isSome_iff_exists.mp hsome
      rw [getCell_rowFillAll_mono ds c _ x hx]
      rfl
    · exact ih _ h1

lemma rowFill_of_some (c : ColId) (d : Str) (r : Row) (x : Str)
    (h : getCell c r = some x) : rowFill (c, d) r = r := by
  unfold rowFill
  have h1 : fillCell d (getCell c r) = getCell c r := by rw [h]; rfl
  rw [h1, setCell_getCell]

lemma rowFillAll_id_of_some (ds : List (ColId × Str)) (r : Row)
    (h : ∀ cd ∈ ds, (getCell cd.1 r).isSome = true) : rowFillAll ds r = r := by
  induction ds with
  | nil => rfl
  | cons rule ds ih =>
    obtain ⟨c, d⟩ := rule
    obtain ⟨x, hx⟩ := Option.isSome_iff_exists.mp (h (c, d) (List.mem_cons_self _ _))
    rw [rowFillAll_cons, rowFill_of_some c d r x hx]
    exact ih (fun cd hmem => h cd (List.mem_cons_of_mem _ hmem))

lemma rowFillAll_idem (ds : List (ColId × Str)) (r : Row) :
    rowFillAll ds (rowFillAll ds r) = rowFillAll ds r :=
  rowFillAll_id_of_some ds _ (fun cd hmem =>
    rowFillAll_some_of_mem ds cd.1 cd.2 r (by rwa [Prod.mk.eta]))

lemma fill_eq_map_rowFillAll (ds : List (ColId × Str)) (df : List Row) :
    fill_missing_values ds df = df.map (rowFillAll ds) := by
  induction ds generalizing df with
  | nil =>
    have h2 : df.map (rowFillAll []) = df.map (fun r => r) := rfl
    rw [h2, List.map_id']
    rfl
  | cons rule ds ih =>
    have h1 : fill_missing_values (rule :: ds) df =
        fill_missing_values ds (df.map (rowFill rule)) := rfl
    rw [h1, ih, List.map_map]
    rfl



lemma sum_map_zero (K : List Str) : (K.map (fun _ => (0 : Nat))).sum = 0 := by
  induction K with
  | nil => rfl
  | cons a K ih => simp [ih]

lemma sum_map_add (K : List Str) (f g : Str → Nat) :
    (K.map (fun k => f k + g k)).sum = (K.map f).sum + (K.map g).sum := by
  induction K with
  | nil => rfl
  | cons a K ih => simp only [List.map_cons, List.sum_cons, ih]; omega

lemma sum_ind_not_mem (K : List Str) (k₀ : Str) (h : k₀ ∉ K) :
    (K.map (fun k => if k₀ = k then 1 else 0)).sum = 0 := by
  induction K with
  | nil => rfl
  | cons a K ih =>
    have ha : k₀ ≠ a := fun he => h (he ▸ List.mem_cons_self a K)
    have hK : k₀ ∉ K := fun hm => h (List.mem_cons_of_mem a hm)
    simp [ha, ih hK]

lemma sum_ind_eq_one (K : List Str) (k₀ : Str) (hK : K.Nodup) (h : k₀ ∈ K) :
    (K.map (fun k => if k₀ = k then 1 else 0)).sum = 1 := by
  induction K with
  | nil => cases h
  | cons a K ih =>
    rcases List.mem_cons.mp h with h1 | h1
    · subst h1
      have hnot : k₀ ∉ K := (List.nodup_cons.mp hK).1
      simp [sum_ind_not_mem K k₀ hnot]
    · have ha : k₀ ≠ a := by
        intro he
        exact (List.nodup_cons.mp hK).1 (he ▸ h1)
      simp only [List.map_cons, List.sum_cons, if_neg ha]
      rw [ih (List.nodup_cons.mp hK).2 h1]

lemma sum_group_lengths (K : List Str) (hK : K.Nodup) (df : List Row)
    (hcov : ∀ r ∈ df, ∀ k, r.countyName = some k → k ∈ K) :
    (K.map (fun k => (county_group df k).length)).sum + missing_count df
      = df.length := by
  induction df with
  | nil =>
    have h0 : (K.map (fun k => (county_group [] k).length)).sum = 0 := by
      have : K.map (fun k => (county_group ([] : List Row) k).length)
           = K.map (fun _ => 0) := rfl
      rw [this, sum_map_zero]
    simp [h0, missing_count]
  | cons r df ih =>
    have hcov' : ∀ r' ∈ df, ∀ k, r'.countyName = some k → k ∈ K :=
      fun r' hm k hk => hcov r' (List.mem_cons_of_mem r hm) k hk
    cases hcty : r.countyName with
    | none =>
      have hg : K.map (fun k => (county_group (r :: df) k).length)
              = K.map (fun k => (county_group df k).length) := by
        apply List.map_congr_left
        intro k _
        unfold county_group
        rw [List.filter_cons]
        simp [hcty]
      have hm : missing_count (r :: df) = missing_count df + 1 := by
        unfold missing_count
        rw [List.filter_cons]
        simp [hcty]
      rw [hg, hm, List.length_cons]
      have := ih hcov'
      omega
    | some k₀ =>
      have hk₀ : k₀ ∈ K := hcov r (List.mem_cons_self r df) k₀ hcty
      have hg : K.map (fun k => (county_group (r :: df) k).length)
              = K.map (fun k => (if k₀ = k then 1 else 0) + (county_group df k).length) := by
        apply List.map_congr_left
        intro k _
        unfold county_group
        rw [List.filter_cons]
        by_cases he : k₀ = k
        · subst he; simp [hcty]; omega
        · simp [hcty, he]
      have hm : missing_count (r :: df) = missing_count df := by
        unfold missing_count
        rw [List.filter_cons]
        simp [hcty]
      rw [hg, hm, List.length_cons, sum_map_add, sum_ind_eq_one K k₀ hK hk₀]
      have := ih hcov'
      omega

lemma strip_of_all_not_space (s : Str) (h : ∀ c ∈ s, isSpaceN c = false) :
    strip s = s := by
  apply strip_of_noSpaceEnds
  constructor
  · intro c hc
    exact h c (List.mem_of_mem_head? (by rw [hc]; exact rfl))
  · intro c hc
    exact h c (List.mem_of_mem_getLast? (by rw [hc]; exact rfl))

lemma strip_of_upper_unknown (s : Str) (h : upperStr s = unknownStr) :
    strip s = s := by
  apply strip_of_all_not_space
  intro c hc
  have hmem : upN c ∈ unknownStr := by
    rw [← h]
    exact List.mem_map_of_mem upN hc
  have hd : ∀ d ∈ unknownStr, isSpaceN d = false := by decide
  rw [← isSpaceN_upN c]
  exact hd _ hmem

/-! ## Claim theorems -/

/-- C1, counterexample: the two predicate implementations do not handle
the sentinel "UNKNOWN" surrounded by whitespace consistently.  On the
value " unknown ", `_needs_geocoding` (which strips before uppercasing)
returns true, while the selection mask of `identify_missing_counties`
(which uppercases without stripping) returns false — so the claimed
iff/consistency fails for the predicate actually used to select rows. -/
theorem c1_counterexample :
    (_needs_geocoding (some wsUnknownStr), needs_geocoding_mask (some wsUnknownStr))
      = (true, false) := by decide

/-- C1, amended: `_needs_geocoding` is true exactly on null, trim-empty,
or values whose trimmed uppercase is "UNKNOWN"; the selection mask of
`identify_missing_counties` is true exactly on null, trim-empty, or
values whose untrimmed uppercase is "UNKNOWN"; every row selected by
the mask also satisfies `_needs_geocoding`. -/
theorem c1_predicates_characterized (v : Option Str) :
    (_needs_geocoding v = true ↔
      v = none ∨ ∃ s, v = some s ∧ (strip s = [] ∨ upperStr (strip s) = unknownStr)) ∧
    (needs_geocoding_mask v = true ↔
      v = none ∨ ∃ s, v = some s ∧ (strip s = [] ∨ upperStr s = unknownStr)) ∧
    (needs_geocoding_mask v = true → _needs_geocoding v = true) := by
  refine ⟨?_, ?_, ?_⟩
  · cases v with
    | none => simp [_needs_geocoding]
    | some s =>
      simp only [_needs_geocoding]
      rw [Bool.or_eq_true, decide_eq_true_eq, decide_eq_true_eq]
      constructor
      · rintro (h | h)
        · exact Or.inr ⟨s, rfl, Or.inl (List.map_eq_nil_iff.mp h)⟩
        · exact Or.inr ⟨s, rfl, Or.inr h⟩
      · rintro (h | ⟨s', hs', h⟩)
        · cases h
        · obtain rfl : s' = s := Option.some.inj hs'.symm
          rcases h with h | h
          · left; rw [h]; rfl
          · right; exact h
  · cases v with
    | none => simp [needs_geocoding_mask]
    | some s =>
      simp only [needs_geocoding_mask]
      rw [Bool.or_eq_true, decide_eq_true_eq, decide_eq_true_eq]
      constructor
      · rintro (h | h)
        · exact Or.inr ⟨s, rfl, Or.inl h⟩
        · exact Or.inr ⟨s, rfl, Or.inr h⟩
      · rintro (h | ⟨s', hs', h⟩)
        · cases h
        · obtain rfl : s' = s := Option.some.inj hs'.symm
          exact h
  · cases v with
    | none => intro _; rfl
    | some s =>
      intro h
      simp only [needs_geocoding_mask] at h
      rw [Bool.or_eq_true, decide_eq_true_eq, decide_eq_true_eq] at h
      simp only [_needs_geocoding]
      rw [Bool.or_eq_true, decide_eq_true_eq, decide_eq_true_eq]
      rcases h with h | h
      · left; rw [h]; rfl
      · right; rw [strip_of_upper_unknown s h]; exact h

/-- C1, witness: the characterization applied at the concrete value
"UNKNOWN", on which both predicates answer true. -/
theorem c1_witness :
    _needs_geocoding (some unknownStr) = true ∧
    needs_geocoding_mask (some unknownStr) = true :=
  ⟨(c1_predicates_characterized (some unknownStr)).1.mpr
      (Or.inr ⟨unknownStr, rfl, Or.inr (by decide)⟩),
   (c1_predicates_characterized (some unknownStr)).2.1.mpr
      (Or.inr ⟨unknownStr, rfl, Or.inr (by decide)⟩)⟩

/-- C2, evaluation at the failing input: on two identical one-row
snapshots with no missing county, `compare_csvs` reports zero records
updated but its success rate is the division-by-zero condition
(`(0 - 0) / 0`, a `ZeroDivisionError` for plain-int operands, a nan for
the numpy scalars `.sum()` yields), modelled as `none` — not the defined
rate the claim requires. -/
theorem c2_zero_missing_division :
    compare_csvs [mkCountyRow (some fultonStr)] [mkCountyRow (some fultonStr)]
      = { original_missing := 0, updated_missing := 0,
          records_updated := 0, success_rate := none } := by decide

/-- C3, counterexample: a non-null lookup result, the empty string, is
falsy in Python, so `process_row` leaves the county cell unchanged and
increments `failed` instead of setting the cell and incrementing
`geocoded` as the claim states. -/
theorem c3_counterexample :
    process_row (some []) (mkCountyRow none) initStats
      = (mkCountyRow none, ⟨0, 0, 0, 1, 0⟩, false) := by decide

/-- C3, amended: on a truthy (non-null, non-empty) result the county
cell is set and `geocoded` incremented; on a null or empty-string
result the row is unchanged and `failed` incremented. -/
theorem c3_process_row_effect (c : Str) (row : Row) (s : Stats) :
    (c ≠ [] → process_row (some c) row s =
      ({ row with countyName := some c },
       { s with geocoded := s.geocoded + 1 }, true)) ∧
    process_row none row s = (row, { s with failed := s.failed + 1 }, false) ∧
    process_row (some []) row s = (row, { s with failed := s.failed + 1 }, false) := by
  refine ⟨?_, ?_, ?_⟩
  · intro hc
    have ht : pyTruthy (some c) = true := by
      simp [pyTruthy, List.isEmpty_iff, hc]
    simp [process_row, ht]
  · simp [process_row, pyTruthy]
  · simp [process_row, pyTruthy]

/-- C3, witness: the amended per-row effect applied at the concrete
result "DeKalb" on a blank row. -/
theorem c3_witness :
    process_row (some dekalbStr) (mkCountyRow none) initStats
      = (mkCountyRow (some dekalbStr), ⟨0, 0, 1, 0, 0⟩, true) := by
  rw [(c3_process_row_effect dekalbStr (mkCountyRow none) initStats).1 (by decide)]
  rfl

/-- C4, counterexample: a response of the expected shape except that the
first county object has no NAME key is a shape deviation, yet the
lookup returns the empty string (`counties[0].get('NAME', '')`), not
null as the claim states. -/
theorem c4_counterexample :
    geocode_address (HttpResult.response 200 (some noNameResp)) = some [] := by
  decide

/-- C4, amended: on a 200 response with well-formed JSON the lookup
returns exactly `extract_county`; every shape deviation other than a
missing NAME key yields null; a present first county yields
`NAME.get('NAME', '')`, i.e. its NAME string when the key is present and
the empty string when it is absent. -/
theorem c4_parse_characterized :
    (∀ body : ApiResponse,
      geocode_address (HttpResult.response 200 (some body)) = extract_county body) ∧
    extract_county ⟨none⟩ = none ∧
    (∀ res : ResultObj, res.addressMatches = none → extract_county ⟨some res⟩ = none) ∧
    extract_county ⟨some ⟨some []⟩⟩ = none ∧
    (∀ (m : AddressMatch) (ms : List AddressMatch), m.geographies = none →
      extract_county ⟨some ⟨some (m :: ms)⟩⟩ = none) ∧
    (∀ (m : AddressMatch) (ms : List AddressMatch) (g : Geographies),
      m.geographies = some g → g.Counties = none →
      extract_county ⟨some ⟨some (m :: ms)⟩⟩ = none) ∧
    (∀ (m : AddressMatch) (ms : List AddressMatch) (g : Geographies),
      m.geographies = some g → g.Counties = some [] →
      extract_county ⟨some ⟨some (m :: ms)⟩⟩ = none) ∧
    (∀ (m : AddressMatch) (ms : List AddressMatch) (g : Geographies)
       (c : CountyObj) (cs : List CountyObj),
      m.geographies = some g → g.Counties = some (c :: cs) →
      extract_county ⟨some ⟨some (m :: ms)⟩⟩ = some (c.NAME.getD [])) := by
  refine ⟨fun body => rfl, rfl, ?_, rfl, ?_, ?_, ?_, ?_⟩
  · intro res h
    simp [extract_county, h]
  · intro m ms h
    simp [extract_county, h]
  · intro m ms g h1 h2
    simp [extract_county, h1, h2]
  · intro m ms g h1 h2
    simp [extract_county, h1, h2]
  · intro m ms g c cs h1 h2
    simp [extract_county, h1, h2]

/-- C4, witness: the characterization applied to the concrete
well-shaped response whose first county NAME is "Fulton". -/
theorem c4_witness : extract_county goodResp = some fultonStr :=
  c4_parse_characterized.2.2.2.2.2.2.2
    ⟨some ⟨some [⟨some fultonStr⟩]⟩⟩ [] ⟨some [⟨some fultonStr⟩]⟩
    ⟨some fultonStr⟩ [] rfl rfl

/-- C5: after the pipeline runs, `geocoded + failed` equals the number
of rows selected by the predicate (the `needs_geocoding` counter), and
`already_had_county + needs_geocoding` equals `total`, which is the
dataset's row count — for every dataset and every client behaviour. -/
theorem c5_stats_invariant (oracle : Nat → Option Str) (df : List Row) :
    (process_csv_pipeline oracle df).2.geocoded
        + (process_csv_pipeline oracle df).2.failed
      = (process_csv_pipeline oracle df).2.needs_geocoding ∧
    (process_csv_pipeline oracle df).2.already_had_county
        + (process_csv_pipeline oracle df).2.needs_geocoding
      = (process_csv_pipeline oracle df).2.total ∧
    (process_csv_pipeline oracle df).2.total = df.length ∧
    (process_csv_pipeline oracle df).2.needs_geocoding
      = (df.filter needs_mask).length := by
  have hdef : process_csv_pipeline oracle df
      = enrichAux oracle 0 df (identify_missing_counties df (load_stats df initStats)) := rfl
  obtain ⟨h1, h2, h3, h4⟩ :=
    enrichAux_stats oracle df 0 (identify_missing_counties df (load_stats df initStats))
  have e1 : (identify_missing_counties df (load_stats df initStats)).geocoded = 0 := rfl
  have e2 : (identify_missing_counties df (load_stats df initStats)).failed = 0 := rfl
  have e3 : (identify_missing_counties df (load_stats df initStats)).total = df.length := rfl
  have e4 : (identify_missing_counties df (load_stats df initStats)).needs_geocoding
      = (df.filter needs_mask).length := rfl
  have e5 : (identify_missing_counties df (load_stats df initStats)).already_had_county
      = df.length - (df.filter needs_mask).length := rfl
  rw [e1, e2] at h1
  rw [e3] at h2
  rw [e4] at h3
  rw [e5] at h4
  have hk : (df.filter needs_mask).length ≤ df.length := List.length_filter_le _ _
  rw [hdef]
  refine ⟨by omega, by omega, by omega, by omega⟩

/-- C6: every row not selected by the needs-geocoding mask is returned
unchanged (in every field) by the pipeline, for every dataset and every
client behaviour. -/
theorem c6_frame (oracle : Nat → Option Str) (df : List Row) :
    List.Forall₂ (fun a b => needs_mask a = false → b = a) df
      (process_csv_pipeline oracle df).1 := by
  have hdef : process_csv_pipeline oracle df
      = enrichAux oracle 0 df (identify_missing_counties df (load_stats df initStats)) := rfl
  rw [hdef]
  exact enrichAux_frame oracle df 0 _

/-- C6, witness: the frame property at the concrete section-8 scenario
dataset with the constant "DeKalb" client. -/
theorem c6_witness :
    List.Forall₂ (fun a b => needs_mask a = false → b = a) scenarioDf
      (process_csv_pipeline exOracle scenarioDf).1 :=
  c6_frame exOracle scenarioDf

/-- C7: each of the three normalize transforms — phone digit stripping,
address trim plus title-case, and default-fill of null cells — is
idempotent, for every dataset, column-presence flag and rule set. -/
theorem c7_normalize_idempotent (hasPhone hasAddr : Bool) (df : List Row)
    (ds : List (ColId × Str)) :
    clean_phone_numbers hasPhone (clean_phone_numbers hasPhone df)
      = clean_phone_numbers hasPhone df ∧
    normalize_addresses hasAddr (normalize_addresses hasAddr df)
      = normalize_addresses hasAddr df ∧
    fill_missing_values ds (fill_missing_values ds df)
      = fill_missing_values ds df := by
  refine ⟨?_, ?_, ?_⟩
  · cases hasPhone with
    | false => rfl
    | true =>
      simp only [clean_phone_numbers, if_true]
      rw [List.map_map]
      apply List.map_congr_left
      intro r _
      cases r
      simp [pyStrOpt, digitsOnly, List.filter_filter]
  · cases hasAddr with
    | false => rfl
    | true =>
      simp only [normalize_addresses, if_true]
      rw [List.map_map]
      apply List.map_congr_left
      intro r _
      cases r with
      | mk sa cy st zc cn ph ht pr =>
        cases sa with
        | none => rfl
        | some s =>
          simp [Function.comp, addr_norm_idem s]
  · rw [fill_eq_map_rowFillAll, fill_eq_map_rowFillAll, List.map_map]
    apply List.map_congr_left
    intro r _
    exact rowFillAll_idem ds r

/-- C8, counterexample: on the dataset with distinct county values
"A B" and "A_B" the sanitization collides, so only one distinct file is
produced for two distinct non-null county values, refuting the claimed
one-file-per-distinct-value (and, on disk, the row-count sum). -/
theorem c8_counterexample :
    ((files_created exDfSplit).dedup.length, (county_keys exDfSplit).length)
      = (1, 2) := by decide

/-- C8, amended: provided sanitization is injective on the dataset's
distinct county values (no "A B" / "A_B" collision), `export_by_county`
produces one distinctly-named file per distinct non-null county value,
every row with a null county is excluded from all partitions, no row
value appears in two partitions, and the partition row counts sum to
total minus the missing-county count. -/
theorem c8_split_properties (df : List Row)
    (hinj : ∀ k1 ∈ county_keys df, ∀ k2 ∈ county_keys df,
      sanitize k1 = sanitize k2 → k1 = k2) :
    (files_created df).Nodup ∧
    (files_created df).dedup.length = (county_keys df).length ∧
    (∀ w ∈ export_writes df, ∀ r ∈ w.2, r.countyName ≠ none) ∧
    List.Pairwise (fun w1 w2 => ∀ r, r ∈ w1.2 → r ∉ w2.2) (export_writes df) ∧
    ((export_writes df).map (fun w => w.2.length)).sum
      = df.length - missing_count df := by
  have hkeys : (county_keys df).Nodup := List.nodup_dedup _
  have hfc : files_created df = (county_keys df).map sanitize := by
    unfold files_created export_writes
    rw [List.map_map]
    rfl
  have hnd : (files_created df).Nodup := by
    rw [hfc]
    exact List.Nodup.map_on hinj hkeys
  have hcov : ∀ r ∈ df, ∀ k, r.countyName = some k → k ∈ county_keys df := by
    intro r hm k hk
    exact List.mem_dedup.mpr (List.mem_filterMap.mpr ⟨r, hm, hk⟩)
  refine ⟨hnd, ?_, ?_, ?_, ?_⟩
  · rw [List.dedup_eq_self.mpr hnd, hfc, List.length_map]
  · intro w hw r hr
    obtain ⟨k, _, hwk⟩ := List.mem_map.mp hw
    rw [← hwk] at hr
    have hcty : r.countyName = some k :=
      of_decide_eq_true (List.mem_filter.mp hr).2
    rw [hcty]
    intro hcon
    cases hcon
  · unfold export_writes
    rw [List.pairwise_map]
    refine List.Pairwise.imp ?_ hkeys
    intro k1 k2 hne r hr1 hr2
    have h1 : r.countyName = some k1 :=
      of_decide_eq_true (List.mem_filter.mp hr1).2
    have h2 : r.countyName = some k2 :=
      of_decide_eq_true (List.mem_filter.mp hr2).2
    rw [h1] at h2
    exact hne (Option.some.inj h2)
  · have hsum := sum_group_lengths (county_keys df) hkeys df hcov
    have hmap : (export_writes df).map (fun w => w.2.length)
        = (county_keys df).map (fun k => (county_group df k).length) := by
      unfold export_writes
      rw [List.map_map]
      rfl
    rw [hmap]
    omega

/-- C8, witness: the amended split properties at the concrete
collision-free dataset with counties "Fulton", NaN, "DeKalb". -/
theorem c8_witness :
    (files_created exDfOk).Nodup ∧
    (files_created exDfOk).dedup.length = (county_keys exDfOk).length ∧
    (∀ w ∈ export_writes exDfOk, ∀ r ∈ w.2, r.countyName ≠ none) ∧
    List.Pairwise (fun w1 w2 => ∀ r, r ∈ w1.2 → r ∉ w2.2) (export_writes exDfOk) ∧
    ((export_writes exDfOk).map (fun w => w.2.length)).sum
      = exDfOk.length - missing_count exDfOk :=
  c8_split_properties exDfOk (by decide)

/-- C9, counterexample: a 301 response — a non-2xx status — carrying a
well-shaped body is not caught by `raise_for_status()` (which raises
only for 4xx/5xx), so the lookup returns the parsed county rather than
the null the claim requires for every non-2xx status. -/
theorem c9_counterexample :
    geocode_address (HttpResult.response 301 (some goodResp)) = some fultonStr := by
  decide

/-- C9, amended: the lookup never propagates an exception (it is a total
function into `Option`); a raised transport exception (network failure,
timeout), any 4xx or 5xx status, and malformed JSON each yield null. -/
theorem c9_error_handling :
    geocode_address HttpResult.exn = none ∧
    (∀ (s : Nat) (body : Option ApiResponse),
      400 ≤ s → s < 600 → geocode_address (HttpResult.response s body) = none) ∧
    (∀ s : Nat, geocode_address (HttpResult.response s none) = none) := by
  refine ⟨rfl, ?_, ?_⟩
  · intro s body h1 h2
    have hr : raise_for_status_raises s = true := by
      unfold raise_for_status_raises
      exact decide_eq_true ⟨h1, h2⟩
    simp [geocode_address, geocode_body, hr]
  · intro s
    by_cases hr : raise_for_status_raises s = true
    · simp [geocode_address, geocode_body, hr]
    · rw [Bool.not_eq_true] at hr
      simp [geocode_address, geocode_body, hr]

/-- C9, witness: the amended error contract applied at a concrete 404
response with a well-shaped body. -/
theorem c9_witness :
    geocode_address (HttpResult.response 404 (some goodResp)) = none :=
  c9_error_handling.2.1 404 (some goodResp) (by decide) (by decide)

/-- C10: the missing-county numbers of `analyze_csv` and `compare_csvs`
count exactly the rows whose county cell is null; that count never
exceeds the number of rows the enrichment mask selects; and on the
concrete rows "UNKNOWN" and "  " (whitespace-only) the missing count is
0 while the mask selects them, so the counts can be strictly smaller. -/
theorem c10_missing_counts :
    (∀ df : List Row, (analyze_csv df).missing_county = missing_count df) ∧
    (∀ orig updated : List Row,
      (compare_csvs orig updated).original_missing = missing_count orig ∧
      (compare_csvs orig updated).updated_missing = missing_count updated) ∧
    (∀ df : List Row, missing_count df ≤ (df.filter needs_mask).length) ∧
    missing_count [mkCountyRow (some unknownStr)] = 0 ∧
    ([mkCountyRow (some unknownStr)].filter needs_mask).length = 1 ∧
    missing_count [mkCountyRow (some [32, 32])] = 0 ∧
    ([mkCountyRow (some [32, 32])].filter needs_mask).length = 1 := by
  refine ⟨fun df => rfl, fun o u => ⟨rfl, rfl⟩, ?_, by decide, by decide,
    by decide, by decide⟩
  intro df
  unfold missing_count
  rw [← List.countP_eq_length_filter, ← List.countP_eq_length_filter]
  apply List.countP_mono_left
  intro r _ h
  cases hc : r.countyName with
  | none => simp [needs_mask, needs_geocoding_mask, hc]
  | some s => rw [hc] at h; cases h

end TitleDB
